import Mathlib

/-
  Shallow embedding of the Auto-review-tool service (src/app.py).

  The service accepts a code-review request, collects source files from a
  GitHub repository tree into a capped text corpus plus a manifest of paths,
  builds a prompt, submits it to the Mistral completion API and maps failures
  to HTTP statuses.  Network responses are modelled as explicit environment
  values; the base64+UTF-8 decoding pipeline is modelled as an oracle
  `dec : String -> DecodeResult` since its internals are irrelevant to the
  collection logic (the source runs `base64.b64decode` and then
  `bytes.decode` with the utf-8 codec).
-/

namespace AutoReview

/-! ## Basic string helpers (Python semantics on code points) -/

/-- Python `s[:n]`: the first `n` code points of `s`. -/
def strTake (s : String) (n : Nat) : String :=
  String.mk (s.data.take n)

/-- Python `s.endswith(t)`. -/
def strEndsWith (s t : String) : Bool :=
  List.isSuffixOf t.data s.data

/-- Helper for Python `sub in s` on char lists: does `sub` occur inside `l`? -/
def hasSub (sub : List Char) : List Char → Bool
  | [] => sub.isEmpty
  | c :: rest => List.isPrefixOf sub (c :: rest) || hasSub sub rest

/-- Python `sub in s` (substring containment). -/
def containsSubstr (s sub : String) : Bool :=
  hasSub sub.data s.data

/-- Python `s.strip` with a slash argument: drop leading and trailing slashes. -/
def stripSlashes (s : String) : String :=
  String.mk (((s.data.dropWhile (· = '/')).reverse.dropWhile (· = '/')).reverse)

/-- Helper for Python `s.split` on a slash: accumulate chars until a slash. -/
def splitSlashAux : List Char → List Char → List String
  | [], acc => [String.mk acc.reverse]
  | c :: rest, acc =>
    if c = '/' then String.mk acc.reverse :: splitSlashAux rest []
    else splitSlashAux rest (c :: acc)

/-- The `path_parts` computation of `collect_code_from_github_repo`
(src/app.py:56): the URL path stripped of outer slashes and split on slashes. -/
def pathParts (p : String) : List String :=
  splitSlashAux (stripSlashes p).data []

/-! ## Data model of the repository collector (src/app.py:51-124) -/

/-- One entry of the GitHub recursive tree listing (`item` in the loop):
path, type and url fields. -/
structure TreeItem where
  path : String
  type : String
  url : String
deriving DecidableEq

/-- Outcome of the blob GET for one tree item, as observed by the code:
either an exception during the request or JSON parsing (caught by the outer
exception handler, src/app.py:121), or a response with a status code and the
content and encoding JSON fields (with the empty-string defaults of
src/app.py:103-104 already applied). -/
inductive BlobFetch where
  | exn
  | resp (status : Nat) (content : String) (encoding : String)
deriving DecidableEq

/-- Outcome of decoding a blob content field as base64 and then UTF-8
(src/app.py:107): success with the decoded text, a UnicodeDecodeError
(caught at src/app.py:108), or any other error such as a binascii error
(caught by the outer exception handler, src/app.py:121). -/
inductive DecodeResult where
  | ok (text : String)
  | unicodeError
  | b64Error
deriving DecidableEq

/-- The `max_code_length` cap (src/app.py:83). -/
def maxCodeLength : Nat := 20000

/-- The `max_files` cap (src/app.py:86). -/
def maxFiles : Nat := 100

/-- The `allowed_extensions` list (src/app.py:84). -/
def allowedExtensions : List String :=
  [".py", ".js", ".java", ".cpp", ".c", ".cs", ".rb", ".go", ".php",
   ".html", ".css", ".swift", ".kt"]

/-- The extension allow-list test of src/app.py:94: some allowed extension is
a suffix of the path. -/
def hasAllowedExt (path : String) : Bool :=
  allowedExtensions.any (fun ext => strEndsWith path ext)

/-- The truncation marker appended when the corpus overflows (src/app.py:115). -/
def codeTruncMarker : String := "\n\n// Code truncated due to size limitations."

/-- Initial value of `file_list` (src/app.py:82). -/
def manifestHeader : String := "\nAll repository files:\n"

/-- The mutable loop state of `collect_code_from_github_repo`:
`code`, `file_list`, `file_count` (src/app.py:81-85). -/
structure CollectState where
  code : String
  fileList : String
  fileCount : Nat
deriving DecidableEq

/-- Initial loop state (src/app.py:81-85). -/
def initState : CollectState := ⟨"", manifestHeader, 0⟩

/-- The tree loop of `collect_code_from_github_repo` (src/app.py:88-122),
one-to-one with the source: stop when the file counter reached `max_files` or
the corpus reached `max_code_length`; always add the path to `file_list`; for
allow-listed blobs consult the blob fetch; on a 200 response with base64
encoding and successful decode, append the file header and body, bump the
counter, and truncate-and-stop if the corpus now exceeds the cap; every other
outcome skips the entry and continues. -/
def collectLoop (fetch : TreeItem → BlobFetch) (dec : String → DecodeResult) :
    List TreeItem → CollectState → CollectState
  | [], s => s
  | item :: rest, s =>
    if maxFiles ≤ s.fileCount ∨ maxCodeLength ≤ s.code.length then s
    else
      let s1 : CollectState := { s with fileList := s.fileList ++ item.path ++ "\n" }
      if item.type = "blob" then
        if hasAllowedExt item.path then
          match fetch item with
          | .exn => collectLoop fetch dec rest s1
          | .resp status content encoding =>
            if status = 200 then
              if encoding = "base64" then
                match dec content with
                | .unicodeError => collectLoop fetch dec rest s1
                | .b64Error => collectLoop fetch dec rest s1
                | .ok text =>
                  let newCode := s.code ++ "\n\n// File: " ++ item.path ++ "\n" ++ text
                  if maxCodeLength < newCode.length then
                    { s1 with
                        code := strTake newCode maxCodeLength ++ codeTruncMarker,
                        fileCount := s.fileCount + 1 }
                  else
                    collectLoop fetch dec rest
                      { s1 with code := newCode, fileCount := s.fileCount + 1 }
              else collectLoop fetch dec rest s1
            else collectLoop fetch dec rest s1
        else collectLoop fetch dec rest s1
      else collectLoop fetch dec rest s1

/-- Corpus assembly from a fetched tree: run the loop from the initial state,
then append `file_list` to `code` and return it (src/app.py:123-124). -/
def collectFromTree (fetch : TreeItem → BlobFetch) (dec : String → DecodeResult)
    (tree : List TreeItem) : String :=
  let s := collectLoop fetch dec tree initState
  s.code ++ s.fileList

/-- Environment for the two repository-level GitHub calls made by
`collect_code_from_github_repo`: the metadata response status
(src/app.py:65-66), the tree response status (src/app.py:74-75), the tree
listing itself, and the per-blob fetch outcomes. The default-branch value only
selects which tree URL is fetched, which is absorbed into the tree fields. -/
structure GithubEnv where
  metadataStatus : Nat
  treeStatus : Nat
  tree : List TreeItem
  fetch : TreeItem → BlobFetch

/-- The function `collect_code_from_github_repo` (src/app.py:51-124), with the
URL already split by urlparse into netloc and path. Errors carry the
ValueError messages raised by the source. -/
def collect_code_from_github_repo (dec : String → DecodeResult) (env : GithubEnv)
    (netloc path : String) : Except String String :=
  if netloc ≠ "github.com" then
    .error "Invalid domain in GitHub repository URL."
  else if (pathParts path).length < 2 then
    .error "Invalid path in GitHub repository URL."
  else if env.metadataStatus ≠ 200 then
    .error "Failed to access GitHub repository. Check the URL and access rights."
  else if env.treeStatus ≠ 200 then
    .error "Failed to retrieve GitHub repository content."
  else
    .ok (collectFromTree env.fetch dec env.tree)

/-! ## Mistral review client (src/app.py:126-203) -/

/-- The message JSON object of the first choice: content is `none` when
missing and `some` of the empty string when empty (the falsy test of
src/app.py:192 rejects both). -/
structure MistralMessage where
  content : Option String
deriving DecidableEq

/-- One element of the choices array: message is `none` when missing, not a
dict, or falsy (src/app.py:189). -/
structure MistralChoice where
  message : Option MistralMessage
deriving DecidableEq

/-- The completion response envelope: choices is `none` when the field is
missing, null or not a list (src/app.py:186); the empty list is also rejected
there. -/
structure MistralBody where
  choices : Option (List MistralChoice)
deriving DecidableEq

/-- Environment for the completion call: the MISTRAL_API_KEY environment
variable (src/app.py:128), the POST status and the parsed response body. -/
structure MistralEnv where
  apiKey : Option String
  postStatus : Nat
  body : MistralBody

/-- Python falsy test on the key (src/app.py:129): true for an unset variable
and for the empty string. -/
def keyMissing : Option String → Bool
  | none => true
  | some s => s = ""

/-- Extraction of the first choice message content with the shape checks of
src/app.py:185-193; errors carry the KeyError messages. -/
def envelopeExtract (b : MistralBody) : Except String String :=
  match b.choices with
  | none => .error "Field \"choices\" is missing or has an incorrect format."
  | some [] => .error "Field \"choices\" is missing or has an incorrect format."
  | some (c :: _) =>
    match c.message with
    | none => .error "Field \"message\" is missing or has an incorrect format."
    | some m =>
      match m.content with
      | none => .error "Field \"content\" is missing."
      | some t => if t = "" then .error "Field \"content\" is missing." else .ok t

/-- A single-quote character, used because Python renders a KeyError inside an
f-string with its message wrapped in such quotes. -/
def pyQuote : String := String.singleton (Char.ofNat 39)

/-- Result of `get_mistral_review`: whether the POST to the completion API was
issued at all, and either the review text or the raised exception message. -/
structure MistralResult where
  requestSent : Bool
  outcome : Except String String

/-- The function `get_mistral_review` (src/app.py:126-203). The missing-key
check happens before the POST (src/app.py:129). The raise-for-status call
raises an HTTPStatusError for every non-2xx status, which is converted to an
exception reading "HTTP error when accessing Mistral AI API."
(src/app.py:198-200). A failed envelope check raises a KeyError that is
wrapped at src/app.py:196 (with the Python quoting of KeyError text) and
wrapped once more by the outer handler at src/app.py:203. -/
def get_mistral_review (env : MistralEnv) (_prompt : String) : MistralResult :=
  if keyMissing env.apiKey then
    ⟨false, .error "Mistral AI API key not found in environment variables."⟩
  else if ¬ (200 ≤ env.postStatus ∧ env.postStatus ≤ 299) then
    ⟨true, .error "HTTP error when accessing Mistral AI API."⟩
  else
    match envelopeExtract env.body with
    | .ok t => ⟨true, .ok t⟩
    | .error kerr =>
      ⟨true, .error ("Invalid response format from Mistral AI API: " ++
        "Invalid response format from Mistral AI API: " ++ pyQuote ++ kerr ++ pyQuote)⟩

/-! ## Prompt builder and the /review handler (src/app.py:205-245) -/

/-- Per-character replacement of the Python html.escape call with quoting
enabled: ampersand, angle brackets and both quote characters become entities;
the sequential replace order in CPython makes this equal to the
character-wise map. -/
def htmlEscapeChar (c : Char) : List Char :=
  if c = '&' then "&amp;".data
  else if c = '<' then "&lt;".data
  else if c = '>' then "&gt;".data
  else if c = Char.ofNat 34 then "&quot;".data
  else if c = Char.ofNat 39 then ("&#x27" ++ ";").data
  else [c]

/-- The html.escape call on the project code (src/app.py:215). -/
def htmlEscape (s : String) : String :=
  String.mk (s.data.flatMap htmlEscapeChar)

/-- The f-string prompt template of the handler (src/app.py:217-225),
with its exact indentation and newlines. -/
def buildPrompt (desc level safeCode : String) : String :=
  "\n        Please analyze the following project, paying particular attention to the fact that the candidate is applying for the "
  ++ level
  ++ " level, and provide feedback according to the response structure.\n\n        Short project description: "
  ++ desc
  ++ "\n\n        Project code:\n        "
  ++ safeCode
  ++ "\n        Please provide your feedback considering the "
  ++ level
  ++ " vacancy level.\n        "

/-- The truncation marker appended when the prompt overflows (src/app.py:229). -/
def promptTruncMarker : String := "\n\n// Prompt truncated due to size limitations."

/-- The prompt cap of the handler (src/app.py:227-229): truncate to 20000
characters and append the marker when exceeded. -/
def reviewPromptCap (p : String) : String :=
  if p.length > 20000 then strTake p 20000 ++ promptTruncMarker else p

/-- A ReviewRequest that already passed the pydantic validators, with the
GitHub URL replaced by its urlparse components. -/
structure ReviewRequest where
  assignment_description : String
  netloc : String
  urlPath : String
  candidate_level : String

/-- The handler HTTP outcome: a 200 review body or an HTTPException with a
status and detail. -/
inductive HttpResponse where
  | ok (review : String)
  | httpError (status : Nat) (detail : String)
deriving DecidableEq

/-- One run of the endpoint: the response plus whether a request to the
completion service was sent. -/
structure ReviewRun where
  response : HttpResponse
  mistralRequestSent : Bool
deriving DecidableEq

/-- The review handler (src/app.py:205-245): collect the corpus (a ValueError
maps to a 400 with the error text, src/app.py:235-236), escape it, build and
cap the prompt, call the review client, and map a raised exception to 500 with
the distinguished detail when its text contains the Mistral HTTP error phrase
(src/app.py:240-245). -/
def review (req : ReviewRequest) (dec : String → DecodeResult)
    (genv : GithubEnv) (menv : MistralEnv) : ReviewRun :=
  match collect_code_from_github_repo dec genv req.netloc req.urlPath with
  | .error msg => ⟨.httpError 400 msg, false⟩
  | .ok projectCode =>
    let prompt := reviewPromptCap
      (buildPrompt req.assignment_description req.candidate_level (htmlEscape projectCode))
    let m := get_mistral_review menv prompt
    match m.outcome with
    | .ok text => ⟨.ok text, m.requestSent⟩
    | .error emsg =>
      if containsSubstr emsg "HTTP error when accessing Mistral AI API" then
        ⟨.httpError 500 "HTTP error when accessing Mistral AI API.", m.requestSent⟩
      else
        ⟨.httpError 500 "An internal server error occurred. Please try again later.", m.requestSent⟩

/-! ## Specification-side vocabulary -/

/-- The manifest text contributed by a list of tree entries, one path per
line, in order. -/
def pathsText : List TreeItem → String
  | [] => ""
  | i :: t => i.path ++ "\n" ++ pathsText t

/-- The per-file failure conditions that the loop swallows (src/app.py:99-122):
an exception around the blob GET, a non-200 blob status, a non-base64 encoding,
or a decode failure. -/
def perFileFailure (f : TreeItem → BlobFetch) (d : String → DecodeResult)
    (i : TreeItem) : Prop :=
  f i = .exn
  ∨ (∃ st c e, f i = .resp st c e ∧ st ≠ 200)
  ∨ (∃ c e, f i = .resp 200 c e ∧ e ≠ "base64")
  ∨ (∃ c, f i = .resp 200 c "base64" ∧ (d c = .unicodeError ∨ d c = .b64Error))

/-! ## Concrete environments used by counterexamples and witnesses -/

/-- A 20001-character file body: decoding it overflows the 20000 cap mid-file. -/
def bigText : String := String.mk (List.replicate 20001 'a')

/-- A 19984-character file body: with the 16-character file header the corpus
reaches exactly 20000 characters. -/
def exactText : String := String.mk (List.replicate 19984 'a')

def itemA : TreeItem := ⟨"a.py", "blob", "u1"⟩
def itemB : TreeItem := ⟨"b.py", "blob", "u2"⟩
def treeAB : List TreeItem := [itemA, itemB]

def fetchBig : TreeItem → BlobFetch := fun _ => .resp 200 "BIG" "base64"
def decBig : String → DecodeResult := fun c => if c = "BIG" then .ok bigText else .ok ""

def fetchEx : TreeItem → BlobFetch := fun _ => .resp 200 "EX" "base64"
def decEx : String → DecodeResult := fun c => if c = "EX" then .ok exactText else .ok ""

def itemS : TreeItem := ⟨"f.py", "blob", "u3"⟩
def tree1 : List TreeItem := [itemS]
def fetchS : TreeItem → BlobFetch := fun _ => .resp 200 "S" "base64"
def decS : String → DecodeResult := fun c => if c = "S" then .ok "x" else .ok ""

def itemE : TreeItem := ⟨"e.py", "blob", "u4"⟩
def fetch404 : TreeItem → BlobFetch := fun _ => .resp 404 "" ""
def fetchEmpty : TreeItem → BlobFetch := fun _ => .resp 200 "" "base64"
def decE : String → DecodeResult := fun _ => .ok ""

def genvOK : GithubEnv := ⟨200, 200, [], fun _ => .exn⟩
def genv404 : GithubEnv := ⟨404, 200, [], fun _ => .exn⟩
def menv500 : MistralEnv := ⟨some "k", 500, ⟨none⟩⟩
def menvNoKey : MistralEnv := ⟨none, 200, ⟨some [⟨some ⟨some "r"⟩⟩]⟩⟩
def reqOK : ReviewRequest := ⟨"desc", "github.com", "/user/repo", "Junior"⟩

/-! ## String helper lemmas -/

theorem strData_append (s t : String) : (s ++ t).data = s.data ++ t.data := rfl

theorem strData_mk (l : List Char) : (String.mk l).data = l := rfl

theorem strLen_mk (l : List Char) : (String.mk l).length = l.length := rfl

theorem strTake_length (s : String) (n : Nat) : (strTake s n).length = min n s.length := by
  cases s with | mk a => exact List.length_take n a

theorem strEndsWith_append_self (s m : String) : strEndsWith (s ++ m) m = true := by
  have h : m.data <:+ (s ++ m).data := by
    rw [strData_append]; exact List.suffix_append _ _
  rw [strEndsWith, List.isSuffixOf_iff_suffix]
  exact h

theorem mem_of_isPrefixOfChar : ∀ {sub l : List Char}, List.isPrefixOf sub l = true →
    ∀ {c : Char}, c ∈ sub → c ∈ l := by
  intro sub
  induction sub with
  | nil => intro l _ c hc; cases hc
  | cons a as ih =>
    intro l hp c hc
    cases l with
    | nil => simp [List.isPrefixOf] at hp
    | cons b bs =>
      rw [List.isPrefixOf_cons₂, Bool.and_eq_true, beq_iff_eq] at hp
      rcases List.mem_cons.mp hc with h1 | h2
      · exact List.mem_cons.mpr (Or.inl (h1.trans hp.1))
      · exact List.mem_cons.mpr (Or.inr (ih hp.2 h2))

theorem mem_of_hasSub : ∀ {l sub : List Char}, hasSub sub l = true →
    ∀ {c : Char}, c ∈ sub → c ∈ l := by
  intro l
  induction l with
  | nil =>
    intro sub hp c hc
    cases sub with
    | nil => cases hc
    | cons a as => simp [hasSub, List.isEmpty] at hp
  | cons b bs ih =>
    intro sub hp c hc
    rw [hasSub, Bool.or_eq_true] at hp
    rcases hp with h1 | h2
    · exact mem_of_isPrefixOfChar h1 hc
    · exact List.mem_cons.mpr (Or.inr (ih h2 hc))

theorem containsSubstr_false_of_not_mem {s sub : String} {c : Char}
    (hc : c ∈ sub.data) (hl : c ∉ s.data) : containsSubstr s sub = false := by
  by_contra hcon
  rw [Bool.not_eq_false] at hcon
  exact hl (mem_of_hasSub hcon hc)

theorem strEndsWith_false_of_not_mem {s t : String} {c : Char}
    (hc : c ∈ t.data) (hs : c ∉ s.data) : strEndsWith s t = false := by
  by_contra h
  rw [Bool.not_eq_false, strEndsWith, List.isSuffixOf_iff_suffix] at h
  exact hs (h.subset hc)

end AutoReview

namespace AutoReview

/-! ## Step lemmas for the collection loop -/

theorem collectLoop_stop (f : TreeItem → BlobFetch) (d : String → DecodeResult)
    (i : TreeItem) (t : List TreeItem) (s : CollectState)
    (h : maxFiles ≤ s.fileCount ∨ maxCodeLength ≤ s.code.length) :
    collectLoop f d (i :: t) s = s := by
  simp [collectLoop, h]

theorem collectLoop_skip_nonblob (f : TreeItem → BlobFetch) (d : String → DecodeResult)
    (i : TreeItem) (t : List TreeItem) (s : CollectState)
    (h : ¬ (maxFiles ≤ s.fileCount ∨ maxCodeLength ≤ s.code.length))
    (hb : i.type ≠ "blob") :
    collectLoop f d (i :: t) s =
      collectLoop f d t { s with fileList := s.fileList ++ i.path ++ "\n" } := by
  simp [collectLoop, h, hb]

theorem collectLoop_skip_ext (f : TreeItem → BlobFetch) (d : String → DecodeResult)
    (i : TreeItem) (t : List TreeItem) (s : CollectState)
    (h : ¬ (maxFiles ≤ s.fileCount ∨ maxCodeLength ≤ s.code.length))
    (he : hasAllowedExt i.path = false) :
    collectLoop f d (i :: t) s =
      collectLoop f d t { s with fileList := s.fileList ++ i.path ++ "\n" } := by
  by_cases hb : i.type = "blob" <;> simp [collectLoop, h, hb, he]

theorem collectLoop_skip_exn (f : TreeItem → BlobFetch) (d : String → DecodeResult)
    (i : TreeItem) (t : List TreeItem) (s : CollectState)
    (h : ¬ (maxFiles ≤ s.fileCount ∨ maxCodeLength ≤ s.code.length))
    (hf : f i = .exn) :
    collectLoop f d (i :: t) s =
      collectLoop f d t { s with fileList := s.fileList ++ i.path ++ "\n" } := by
  by_cases hb : i.type = "blob" <;> by_cases he : hasAllowedExt i.path <;>
    simp [collectLoop, h, hb, he, hf]

theorem collectLoop_skip_status (f : TreeItem → BlobFetch) (d : String → DecodeResult)
    (i : TreeItem) (t : List TreeItem) (s : CollectState) (st : Nat) (c e : String)
    (h : ¬ (maxFiles ≤ s.fileCount ∨ maxCodeLength ≤ s.code.length))
    (hf : f i = .resp st c e) (hst : st ≠ 200) :
    collectLoop f d (i :: t) s =
      collectLoop f d t { s with fileList := s.fileList ++ i.path ++ "\n" } := by
  by_cases hb : i.type = "blob" <;> by_cases he : hasAllowedExt i.path <;>
    simp [collectLoop, h, hb, he, hf, hst]

theorem collectLoop_skip_encoding (f : TreeItem → BlobFetch) (d : String → DecodeResult)
    (i : TreeItem) (t : List TreeItem) (s : CollectState) (c e : String)
    (h : ¬ (maxFiles ≤ s.fileCount ∨ maxCodeLength ≤ s.code.length))
    (hf : f i = .resp 200 c e) (henc : e ≠ "base64") :
    collectLoop f d (i :: t) s =
      collectLoop f d t { s with fileList := s.fileList ++ i.path ++ "\n" } := by
  by_cases hb : i.type = "blob" <;> by_cases he : hasAllowedExt i.path <;>
    simp [collectLoop, h, hb, he, hf, henc]

theorem collectLoop_skip_decode (f : TreeItem → BlobFetch) (d : String → DecodeResult)
    (i : TreeItem) (t : List TreeItem) (s : CollectState) (c : String)
    (h : ¬ (maxFiles ≤ s.fileCount ∨ maxCodeLength ≤ s.code.length))
    (hf : f i = .resp 200 c "base64")
    (hd : d c = .unicodeError ∨ d c = .b64Error) :
    collectLoop f d (i :: t) s =
      collectLoop f d t { s with fileList := s.fileList ++ i.path ++ "\n" } := by
  by_cases hb : i.type = "blob" <;> by_cases he : hasAllowedExt i.path <;>
    rcases hd with hd | hd <;> simp [collectLoop, h, hb, he, hf, hd]

theorem collectLoop_append_fits (f : TreeItem → BlobFetch) (d : String → DecodeResult)
    (i : TreeItem) (t : List TreeItem) (s : CollectState) (c text : String)
    (h : ¬ (maxFiles ≤ s.fileCount ∨ maxCodeLength ≤ s.code.length))
    (hb : i.type = "blob") (he : hasAllowedExt i.path = true)
    (hf : f i = .resp 200 c "base64") (hd : d c = .ok text)
    (hlen : ¬ maxCodeLength < (s.code ++ "\n\n// File: " ++ i.path ++ "\n" ++ text).length) :
    collectLoop f d (i :: t) s =
      collectLoop f d t
        { code := s.code ++ "\n\n// File: " ++ i.path ++ "\n" ++ text,
          fileList := s.fileList ++ i.path ++ "\n",
          fileCount := s.fileCount + 1 } := by
  rw [String.length_append, String.length_append, String.length_append,
    String.length_append] at hlen
  simp [collectLoop, h, hb, he, hf, hd, hlen]

theorem collectLoop_append_overflow (f : TreeItem → BlobFetch) (d : String → DecodeResult)
    (i : TreeItem) (t : List TreeItem) (s : CollectState) (c text : String)
    (h : ¬ (maxFiles ≤ s.fileCount ∨ maxCodeLength ≤ s.code.length))
    (hb : i.type = "blob") (he : hasAllowedExt i.path = true)
    (hf : f i = .resp 200 c "base64") (hd : d c = .ok text)
    (hlen : maxCodeLength < (s.code ++ "\n\n// File: " ++ i.path ++ "\n" ++ text).length) :
    collectLoop f d (i :: t) s =
      { code := strTake (s.code ++ "\n\n// File: " ++ i.path ++ "\n" ++ text) maxCodeLength
          ++ codeTruncMarker,
        fileList := s.fileList ++ i.path ++ "\n",
        fileCount := s.fileCount + 1 } := by
  have hlen2 := hlen
  rw [String.length_append, String.length_append, String.length_append,
    String.length_append] at hlen2
  simp [collectLoop, h, hb, he, hf, hd, hlen2]

theorem collectLoop_cons_shape (f : TreeItem → BlobFetch) (d : String → DecodeResult)
    (i : TreeItem) (t : List TreeItem) (s : CollectState) :
    ((maxFiles ≤ s.fileCount ∨ maxCodeLength ≤ s.code.length) ∧ collectLoop f d (i :: t) s = s)
    ∨ (¬ (maxFiles ≤ s.fileCount ∨ maxCodeLength ≤ s.code.length) ∧
        (collectLoop f d (i :: t) s =
          collectLoop f d t { s with fileList := s.fileList ++ i.path ++ "\n" }
        ∨ (∃ text : String,
            (s.code ++ "\n\n// File: " ++ i.path ++ "\n" ++ text).length ≤ maxCodeLength ∧
            collectLoop f d (i :: t) s =
              collectLoop f d t
                { code := s.code ++ "\n\n// File: " ++ i.path ++ "\n" ++ text,
                  fileList := s.fileList ++ i.path ++ "\n",
                  fileCount := s.fileCount + 1 })
        ∨ (∃ text : String,
            maxCodeLength < (s.code ++ "\n\n// File: " ++ i.path ++ "\n" ++ text).length ∧
            collectLoop f d (i :: t) s =
              { code := strTake (s.code ++ "\n\n// File: " ++ i.path ++ "\n" ++ text) maxCodeLength
                  ++ codeTruncMarker,
                fileList := s.fileList ++ i.path ++ "\n",
                fileCount := s.fileCount + 1 }))) := by
  by_cases hstop : maxFiles ≤ s.fileCount ∨ maxCodeLength ≤ s.code.length
  · exact Or.inl ⟨hstop, collectLoop_stop f d i t s hstop⟩
  refine Or.inr ⟨hstop, ?_⟩
  by_cases hb : i.type = "blob"
  · by_cases he : hasAllowedExt i.path
    · rcases hf : f i with _ | ⟨st, c, e⟩
      · exact Or.inl (collectLoop_skip_exn f d i t s hstop hf)
      · by_cases hst : st = 200
        · subst hst
          by_cases henc : e = "base64"
          · subst henc
            rcases hd : d c with text | _ | _
            · by_cases hlen :
                maxCodeLength < (s.code ++ "\n\n// File: " ++ i.path ++ "\n" ++ text).length
              · exact Or.inr (Or.inr ⟨text, hlen,
                  collectLoop_append_overflow f d i t s c text hstop hb he hf hd hlen⟩)
              · exact Or.inr (Or.inl ⟨text, Nat.not_lt.mp hlen,
                  collectLoop_append_fits f d i t s c text hstop hb he hf hd hlen⟩)
            · exact Or.inl (collectLoop_skip_decode f d i t s c hstop hf (Or.inl hd))
            · exact Or.inl (collectLoop_skip_decode f d i t s c hstop hf (Or.inr hd))
          · exact Or.inl (collectLoop_skip_encoding f d i t s c e hstop hf henc)
        · exact Or.inl (collectLoop_skip_status f d i t s st c e hstop hf hst)
    · exact Or.inl (collectLoop_skip_ext f d i t s hstop (by simpa using he))
  · exact Or.inl (collectLoop_skip_nonblob f d i t s hstop hb)

end AutoReview

namespace AutoReview

/-! ## Invariants of the collection loop -/

theorem collectLoop_code_length_inv (f : TreeItem → BlobFetch) (d : String → DecodeResult)
    (tree : List TreeItem) (s : CollectState) (h : s.code.length ≤ maxCodeLength) :
    (collectLoop f d tree s).code.length ≤ maxCodeLength ∨
      ((collectLoop f d tree s).code.length = maxCodeLength + codeTruncMarker.length ∧
        strEndsWith (collectLoop f d tree s).code codeTruncMarker = true) := by
  induction tree generalizing s with
  | nil => exact Or.inl h
  | cons i t ih =>
    rcases collectLoop_cons_shape f d i t s with
      ⟨_, heq⟩ | ⟨_, heq | ⟨text, hle, heq⟩ | ⟨text, hlt, heq⟩⟩
    · rw [heq]; exact Or.inl h
    · rw [heq]; exact ih _ h
    · rw [heq]; exact ih _ hle
    · rw [heq]
      right
      refine ⟨?_, strEndsWith_append_self _ _⟩
      rw [String.length_append, strTake_length, Nat.min_eq_left (Nat.le_of_lt hlt)]

theorem collectLoop_count_inv (f : TreeItem → BlobFetch) (d : String → DecodeResult)
    (tree : List TreeItem) (s : CollectState) (h : s.fileCount ≤ maxFiles) :
    (collectLoop f d tree s).fileCount ≤ maxFiles := by
  induction tree generalizing s with
  | nil => exact h
  | cons i t ih =>
    rcases collectLoop_cons_shape f d i t s with
      ⟨_, heq⟩ | ⟨hstop, heq | ⟨text, _, heq⟩ | ⟨text, _, heq⟩⟩
    · rw [heq]; exact h
    · rw [heq]; exact ih _ h
    · rw [heq]
      have hcnt : s.fileCount < maxFiles := by
        rcases Nat.lt_or_ge s.fileCount maxFiles with h1 | h1
        · exact h1
        · exact absurd (Or.inl h1) hstop
      exact ih _ (by show s.fileCount + 1 ≤ maxFiles; omega)
    · rw [heq]
      have hcnt : s.fileCount < maxFiles := by
        rcases Nat.lt_or_ge s.fileCount maxFiles with h1 | h1
        · exact h1
        · exact absurd (Or.inl h1) hstop
      show s.fileCount + 1 ≤ maxFiles
      omega

theorem collectLoop_fileList_shape (f : TreeItem → BlobFetch) (d : String → DecodeResult)
    (tree : List TreeItem) (s : CollectState) :
    ∃ k, k ≤ tree.length ∧
      (collectLoop f d tree s).fileList = s.fileList ++ pathsText (tree.take k) := by
  induction tree generalizing s with
  | nil => exact ⟨0, Nat.le_refl 0, by simp [collectLoop, pathsText]⟩
  | cons i t ih =>
    rcases collectLoop_cons_shape f d i t s with
      ⟨_, heq⟩ | ⟨_, heq | ⟨text, _, heq⟩ | ⟨text, _, heq⟩⟩
    · exact ⟨0, Nat.zero_le _, by rw [heq]; simp [pathsText]⟩
    · obtain ⟨k, hk, hfl⟩ := ih { s with fileList := s.fileList ++ i.path ++ "\n" }
      refine ⟨k + 1, by simpa using hk, ?_⟩
      rw [heq, hfl]
      simp only [List.take_succ_cons, pathsText]
      simp [String.append_assoc]
    · obtain ⟨k, hk, hfl⟩ := ih
        { code := s.code ++ "\n\n// File: " ++ i.path ++ "\n" ++ text,
          fileList := s.fileList ++ i.path ++ "\n", fileCount := s.fileCount + 1 }
      refine ⟨k + 1, by simpa using hk, ?_⟩
      rw [heq, hfl]
      simp only [List.take_succ_cons, pathsText]
      simp [String.append_assoc]
    · refine ⟨1, by simp, ?_⟩
      rw [heq]
      simp only [List.take_succ_cons, List.take_zero, pathsText]
      rw [String.append_assoc, String.append_assoc, String.append_empty]

theorem collectLoop_fileList_complete (f : TreeItem → BlobFetch) (d : String → DecodeResult)
    (tree : List TreeItem) (s : CollectState)
    (hc : (collectLoop f d tree s).fileCount < maxFiles)
    (hl : (collectLoop f d tree s).code.length < maxCodeLength) :
    (collectLoop f d tree s).fileList = s.fileList ++ pathsText tree := by
  induction tree generalizing s with
  | nil => simp [collectLoop, pathsText]
  | cons i t ih =>
    rcases collectLoop_cons_shape f d i t s with
      ⟨hstop, heq⟩ | ⟨_, heq | ⟨text, _, heq⟩ | ⟨text, hlt, heq⟩⟩
    · rw [heq] at hc hl
      rcases hstop with h1 | h1
      · omega
      · omega
    · rw [heq] at hc hl ⊢
      rw [ih _ hc hl]
      simp only [pathsText]
      simp [String.append_assoc]
    · rw [heq] at hc hl ⊢
      rw [ih _ hc hl]
      simp only [pathsText]
      simp [String.append_assoc]
    · rw [heq] at hl
      exfalso
      revert hl
      show ¬ (strTake (s.code ++ "\n\n// File: " ++ i.path ++ "\n" ++ text) maxCodeLength
        ++ codeTruncMarker).length < maxCodeLength
      rw [String.length_append, strTake_length, Nat.min_eq_left (Nat.le_of_lt hlt)]
      omega

theorem collectLoop_fetch_congr (f₁ f₂ : TreeItem → BlobFetch) (d : String → DecodeResult)
    (tree : List TreeItem) (s : CollectState)
    (hagree : ∀ it : TreeItem, it.type = "blob" → hasAllowedExt it.path = true → f₁ it = f₂ it) :
    collectLoop f₁ d tree s = collectLoop f₂ d tree s := by
  induction tree generalizing s with
  | nil => rfl
  | cons i t ih =>
    by_cases hstop : maxFiles ≤ s.fileCount ∨ maxCodeLength ≤ s.code.length
    · rw [collectLoop_stop f₁ d i t s hstop, collectLoop_stop f₂ d i t s hstop]
    by_cases hb : i.type = "blob"
    · by_cases he : hasAllowedExt i.path
      · have hf : f₁ i = f₂ i := hagree i hb he
        rcases hf1 : f₁ i with _ | ⟨st, c, e⟩
        · rw [collectLoop_skip_exn f₁ d i t s hstop hf1,
            collectLoop_skip_exn f₂ d i t s hstop (hf ▸ hf1), ih]
        · by_cases hst : st = 200
          · subst hst
            by_cases henc : e = "base64"
            · subst henc
              rcases hd : d c with text | _ | _
              · by_cases hlen :
                  maxCodeLength < (s.code ++ "\n\n// File: " ++ i.path ++ "\n" ++ text).length
                · rw [collectLoop_append_overflow f₁ d i t s c text hstop hb he hf1 hd hlen,
                    collectLoop_append_overflow f₂ d i t s c text hstop hb he (hf ▸ hf1) hd hlen]
                · rw [collectLoop_append_fits f₁ d i t s c text hstop hb he hf1 hd hlen,
                    collectLoop_append_fits f₂ d i t s c text hstop hb he (hf ▸ hf1) hd hlen, ih]
              · rw [collectLoop_skip_decode f₁ d i t s c hstop hf1 (Or.inl hd),
                  collectLoop_skip_decode f₂ d i t s c hstop (hf ▸ hf1) (Or.inl hd), ih]
              · rw [collectLoop_skip_decode f₁ d i t s c hstop hf1 (Or.inr hd),
                  collectLoop_skip_decode f₂ d i t s c hstop (hf ▸ hf1) (Or.inr hd), ih]
            · rw [collectLoop_skip_encoding f₁ d i t s c e hstop hf1 henc,
                collectLoop_skip_encoding f₂ d i t s c e hstop (hf ▸ hf1) henc, ih]
          · rw [collectLoop_skip_status f₁ d i t s st c e hstop hf1 hst,
              collectLoop_skip_status f₂ d i t s st c e hstop (hf ▸ hf1) hst, ih]
      · rw [collectLoop_skip_ext f₁ d i t s hstop (by simpa using he),
          collectLoop_skip_ext f₂ d i t s hstop (by simpa using he), ih]
    · rw [collectLoop_skip_nonblob f₁ d i t s hstop hb,
        collectLoop_skip_nonblob f₂ d i t s hstop hb, ih]

end AutoReview

namespace AutoReview

/-! ## Prompt and escaping lemmas -/

theorem reviewPromptCap_over (p : String) (h : 20000 < p.length) :
    (reviewPromptCap p).length = 20000 + promptTruncMarker.length ∧
      strEndsWith (reviewPromptCap p) promptTruncMarker = true := by
  rw [reviewPromptCap, if_pos h]
  refine ⟨?_, strEndsWith_append_self _ _⟩
  rw [String.length_append, strTake_length, Nat.min_eq_left (Nat.le_of_lt h)]

theorem htmlEscapeChar_length_pos (c : Char) : 1 ≤ (htmlEscapeChar c).length := by
  rw [htmlEscapeChar]
  split_ifs <;> simp

theorem flatMap_htmlEscapeChar_length_ge (l : List Char) :
    l.length ≤ (l.flatMap htmlEscapeChar).length := by
  induction l with
  | nil => simp
  | cons c cs ih =>
    rw [List.flatMap_cons, List.length_append, List.length_cons]
    have := htmlEscapeChar_length_pos c
    omega

theorem htmlEscape_length_ge (s : String) : s.length ≤ (htmlEscape s).length := by
  cases s with | mk l => exact flatMap_htmlEscapeChar_length_ge l

theorem buildPrompt_length_ge (d l sc : String) : sc.length ≤ (buildPrompt d l sc).length := by
  simp only [buildPrompt, String.length_append]
  omega

theorem codeTruncMarker_length : codeTruncMarker.length = 44 := by decide

/-! ## Facts about the concrete runs -/

theorem bigText_length : bigText.length = 20001 := by
  show (String.mk (List.replicate 20001 'a')).length = 20001
  rw [strLen_mk, List.length_replicate]

theorem exactText_length : exactText.length = 19984 := by
  show (String.mk (List.replicate 19984 'a')).length = 19984
  rw [strLen_mk, List.length_replicate]

theorem big_newCode_over :
    maxCodeLength <
      (initState.code ++ "\n\n// File: " ++ itemA.path ++ "\n" ++ bigText).length := by
  rw [String.length_append, String.length_append, String.length_append,
    String.length_append, bigText_length]
  decide

theorem bigRun : collectLoop fetchBig decBig treeAB initState =
    { code := strTake ((initState.code ++ "\n\n// File: " ++ itemA.path ++ "\n" ++ bigText))
        maxCodeLength ++ codeTruncMarker,
      fileList := initState.fileList ++ itemA.path ++ "\n",
      fileCount := initState.fileCount + 1 } :=
  collectLoop_append_overflow fetchBig decBig itemA [itemB] initState "BIG" bigText
    (by decide) rfl (by decide) rfl (by simp [decBig]) big_newCode_over

theorem bigRun_code_length :
    (collectLoop fetchBig decBig treeAB initState).code.length =
      maxCodeLength + codeTruncMarker.length := by
  rw [bigRun]
  show (strTake _ maxCodeLength ++ codeTruncMarker).length = _
  rw [String.length_append, strTake_length, Nat.min_eq_left (Nat.le_of_lt big_newCode_over)]

theorem big_code_over :
    maxCodeLength < (collectLoop fetchBig decBig treeAB initState).code.length := by
  rw [bigRun_code_length, codeTruncMarker_length]
  omega

theorem bigCorpus_length_gt : 20000 < (collectFromTree fetchBig decBig treeAB).length := by
  show 20000 < ((collectLoop fetchBig decBig treeAB initState).code ++
    (collectLoop fetchBig decBig treeAB initState).fileList).length
  rw [String.length_append, bigRun_code_length, codeTruncMarker_length]
  have hm : maxCodeLength = 20000 := rfl
  omega

theorem exactRun : collectLoop fetchEx decEx treeAB initState =
    { code := initState.code ++ "\n\n// File: " ++ itemA.path ++ "\n" ++ exactText,
      fileList := initState.fileList ++ itemA.path ++ "\n",
      fileCount := initState.fileCount + 1 } := by
  have hlen : ¬ maxCodeLength <
      (initState.code ++ "\n\n// File: " ++ itemA.path ++ "\n" ++ exactText).length := by
    rw [String.length_append, String.length_append, String.length_append,
      String.length_append, exactText_length]
    decide
  show collectLoop fetchEx decEx (itemA :: [itemB]) initState = _
  rw [collectLoop_append_fits fetchEx decEx itemA [itemB] initState "EX" exactText
    (by decide) rfl (by decide) rfl (by simp [decEx]) hlen]
  apply collectLoop_stop
  refine Or.inr ?_
  show maxCodeLength ≤
    (initState.code ++ "\n\n// File: " ++ itemA.path ++ "\n" ++ exactText).length
  rw [String.length_append, String.length_append, String.length_append,
    String.length_append, exactText_length]
  decide

theorem exactRun_code_length :
    (collectLoop fetchEx decEx treeAB initState).code.length = maxCodeLength := by
  rw [exactRun]
  show (initState.code ++ "\n\n// File: " ++ itemA.path ++ "\n" ++ exactText).length = _
  rw [String.length_append, String.length_append, String.length_append,
    String.length_append, exactText_length]
  decide

theorem exact_corpus_no_z : ('z' : Char) ∉ (collectFromTree fetchEx decEx treeAB).data := by
  show ('z' : Char) ∉ ((collectLoop fetchEx decEx treeAB initState).code ++
    (collectLoop fetchEx decEx treeAB initState).fileList).data
  rw [exactRun]
  simp only [initState, itemA, exactText, manifestHeader, strData_append, strData_mk,
    List.mem_append, List.mem_replicate]
  decide

theorem exact_corpus_no_b : ('b' : Char) ∉ (collectFromTree fetchEx decEx treeAB).data := by
  show ('b' : Char) ∉ ((collectLoop fetchEx decEx treeAB initState).code ++
    (collectLoop fetchEx decEx treeAB initState).fileList).data
  rw [exactRun]
  simp only [initState, itemA, exactText, manifestHeader, strData_append, strData_mk,
    List.mem_append, List.mem_replicate]
  decide

end AutoReview

namespace AutoReview

/-! ## Claim theorems -/

/-- Claim C1, counterexample: at a concrete two-entry tree whose first file
decodes to 20001 characters, the pre-manifest corpus, the returned
corpus-plus-manifest string, and the capped prompt all exceed 20000
characters, refuting the claim that the CodeCorpus text and the final Prompt
never exceed 20000 characters. -/
theorem claim1_size_caps_counterexample :
    20000 < (collectLoop fetchBig decBig treeAB initState).code.length
    ∧ 20000 < (collectFromTree fetchBig decBig treeAB).length
    ∧ 20000 < (reviewPromptCap (buildPrompt "d" "Junior"
        (htmlEscape (collectFromTree fetchBig decBig treeAB)))).length := by
  refine ⟨?_, bigCorpus_length_gt, ?_⟩
  · rw [bigRun_code_length, codeTruncMarker_length]
    have hm : maxCodeLength = 20000 := rfl
    omega
  · have h1 := bigCorpus_length_gt
    have h2 := htmlEscape_length_ge (collectFromTree fetchBig decBig treeAB)
    have h3 := buildPrompt_length_ge "d" "Junior"
      (htmlEscape (collectFromTree fetchBig decBig treeAB))
    have h4 : 20000 < (buildPrompt "d" "Junior"
        (htmlEscape (collectFromTree fetchBig decBig treeAB))).length := by omega
    have h5 := reviewPromptCap_over _ h4
    have h6 : 0 < promptTruncMarker.length := by decide
    omega

/-- Claim C1, amended: the corpus code section stays within the 20000 cap
except for the appended truncation marker (it is either at most 20000
characters, or exactly 20000 plus the marker length and ends with the marker);
the capped prompt obeys the same rule with its own marker. Truncation is
marked, never silent, but the capped strings exceed 20000 by the marker
length, and the returned corpus additionally carries the manifest. -/
theorem claim1_size_caps_amended :
    (∀ (f : TreeItem → BlobFetch) (d : String → DecodeResult) (tree : List TreeItem),
      (collectLoop f d tree initState).code.length ≤ maxCodeLength ∨
        ((collectLoop f d tree initState).code.length
            = maxCodeLength + codeTruncMarker.length ∧
          strEndsWith (collectLoop f d tree initState).code codeTruncMarker = true))
    ∧ (∀ p : String,
        (reviewPromptCap p).length ≤ 20000 ∨
          ((reviewPromptCap p).length = 20000 + promptTruncMarker.length ∧
            strEndsWith (reviewPromptCap p) promptTruncMarker = true)) := by
  constructor
  · intro f d tree
    exact collectLoop_code_length_inv f d tree initState (by decide)
  · intro p
    by_cases hp : p.length > 20000
    · exact Or.inr (reviewPromptCap_over p hp)
    · left
      rw [reviewPromptCap, if_neg hp]
      omega

/-- Claim C2, counterexample: a two-entry tree whose first file fills the
corpus to exactly 20000 characters makes the loop stop early at the character
cap with the second entry unprocessed, yet the returned corpus contains no
truncation marker at all, refuting the claim that a stop at a cap always ends
the returned corpus with the marker. -/
theorem claim2_trunc_marker_counterexample :
    (collectLoop fetchEx decEx treeAB initState).code.length = maxCodeLength
    ∧ (collectLoop fetchEx decEx treeAB initState).fileCount = 1
    ∧ treeAB.length = 2
    ∧ containsSubstr (collectFromTree fetchEx decEx treeAB) codeTruncMarker = false
    ∧ strEndsWith (collectFromTree fetchEx decEx treeAB) codeTruncMarker = false := by
  have hz : ('z' : Char) ∈ codeTruncMarker.data := by decide
  refine ⟨exactRun_code_length, ?_, rfl, ?_, ?_⟩
  · rw [exactRun]; rfl
  · exact containsSubstr_false_of_not_mem hz exact_corpus_no_z
  · exact strEndsWith_false_of_not_mem hz exact_corpus_no_z

/-- Claim C2, amended: the truncation marker is appended exactly when a file
append pushed the corpus past the 20000 cap, and then it terminates the code
section; the collector always returns the code section followed by the
manifest, so the marker (when present) sits before the manifest rather than at
the end, and a stop at the 100-file cap or at exactly the character cap
appends no marker. -/
theorem claim2_trunc_marker_amended :
    ∀ (f : TreeItem → BlobFetch) (d : String → DecodeResult) (tree : List TreeItem),
      (maxCodeLength < (collectLoop f d tree initState).code.length →
        strEndsWith (collectLoop f d tree initState).code codeTruncMarker = true)
      ∧ collectFromTree f d tree =
          (collectLoop f d tree initState).code ++ (collectLoop f d tree initState).fileList := by
  intro f d tree
  refine ⟨?_, rfl⟩
  intro hover
  rcases collectLoop_code_length_inv f d tree initState (by decide) with h | ⟨_, h2⟩
  · omega
  · exact h2

/-- Witness for claim C2: the overflowing run does end its code section with
the marker. -/
theorem claim2_trunc_marker_witness :
    maxCodeLength < (collectLoop fetchBig decBig treeAB initState).code.length ∧
    strEndsWith (collectLoop fetchBig decBig treeAB initState).code codeTruncMarker = true :=
  ⟨big_code_over, (claim2_trunc_marker_amended fetchBig decBig treeAB).1 big_code_over⟩

/-- Claim C3, counterexample: in the exact-fill run the second tree entry has
path b.py, but the returned corpus-plus-manifest string does not mention it at
all, refuting the claim that the manifest lists every tree path. -/
theorem claim3_manifest_counterexample :
    treeAB.map TreeItem.path = ["a.py", "b.py"]
    ∧ containsSubstr (collectFromTree fetchEx decEx treeAB) "b.py" = false := by
  refine ⟨rfl, ?_⟩
  exact containsSubstr_false_of_not_mem (by decide) exact_corpus_no_b

/-- Claim C3, amended: the manifest lists, one per line and in encounter
order, the paths of an initial prefix of the tree entries; it lists every
tree path whenever the run ends below both caps (so no early stop occurred),
but entries after an early stop are omitted. -/
theorem claim3_manifest_amended :
    ∀ (f : TreeItem → BlobFetch) (d : String → DecodeResult) (tree : List TreeItem),
      (∃ k, k ≤ tree.length ∧
        (collectLoop f d tree initState).fileList = manifestHeader ++ pathsText (tree.take k))
      ∧ ((collectLoop f d tree initState).fileCount < maxFiles →
          (collectLoop f d tree initState).code.length < maxCodeLength →
          (collectLoop f d tree initState).fileList = manifestHeader ++ pathsText tree) := by
  intro f d tree
  constructor
  · exact collectLoop_fileList_shape f d tree initState
  · intro h1 h2
    exact collectLoop_fileList_complete f d tree initState h1 h2

/-- Witness for claim C3: a one-file run below both caps lists the full
manifest. -/
theorem claim3_manifest_witness :
    (collectLoop fetchS decS tree1 initState).fileCount < maxFiles ∧
    (collectLoop fetchS decS tree1 initState).code.length < maxCodeLength ∧
    (collectLoop fetchS decS tree1 initState).fileList = manifestHeader ++ pathsText tree1 :=
  ⟨by decide, by decide,
   (claim3_manifest_amended fetchS decS tree1).2 (by decide) (by decide)⟩

end AutoReview

namespace AutoReview

/-- Claim C4: if the completion-service POST returns a non-2xx status (for
example 500), the review endpoint responds 500 with detail exactly
"HTTP error when accessing Mistral AI API." and nothing else in the body. -/
theorem claim4_mistral_http_error :
    ∀ (req : ReviewRequest) (d : String → DecodeResult) (genv : GithubEnv)
      (menv : MistralEnv) (corpus : String),
      collect_code_from_github_repo d genv req.netloc req.urlPath = .ok corpus →
      keyMissing menv.apiKey = false →
      ¬ (200 ≤ menv.postStatus ∧ menv.postStatus ≤ 299) →
      (review req d genv menv).response =
        .httpError 500 "HTTP error when accessing Mistral AI API." := by
  intro req d genv menv corpus hcol hkey hstat
  have hsub : containsSubstr "HTTP error when accessing Mistral AI API."
      "HTTP error when accessing Mistral AI API" = true := by decide
  rw [review, hcol]
  simp only [get_mistral_review, hkey, Bool.false_eq_true, if_false, if_pos hstat, hsub, if_true]

/-- Witness for claim C4: a concrete run whose POST returns 500 yields the
distinguished 500 detail. -/
theorem claim4_mistral_http_error_witness :
    keyMissing menv500.apiKey = false ∧
    ¬ (200 ≤ menv500.postStatus ∧ menv500.postStatus ≤ 299) ∧
    (review reqOK decS genvOK menv500).response =
      .httpError 500 "HTTP error when accessing Mistral AI API." :=
  ⟨rfl, by decide,
   claim4_mistral_http_error reqOK decS genvOK menv500
     (collectFromTree genvOK.fetch decS genvOK.tree) rfl rfl (by decide)⟩

/-- Claim C5: if the repository-metadata fetch returns a non-200 status, the
review endpoint responds 400 with the fixed access-rights detail and no
request is sent to the completion service. -/
theorem claim5_metadata_failure :
    ∀ (req : ReviewRequest) (d : String → DecodeResult) (genv : GithubEnv)
      (menv : MistralEnv),
      req.netloc = "github.com" → ¬ (pathParts req.urlPath).length < 2 →
      genv.metadataStatus ≠ 200 →
      review req d genv menv =
        ⟨.httpError 400 "Failed to access GitHub repository. Check the URL and access rights.",
         false⟩ := by
  intro req d genv menv hn hp hm
  rw [review, collect_code_from_github_repo]
  rw [if_neg (by simp [hn]), if_neg hp, if_pos hm]

/-- Witness for claim C5: a concrete run whose metadata fetch returns 404
yields the 400 response and no completion call. -/
theorem claim5_metadata_failure_witness :
    genv404.metadataStatus ≠ 200 ∧
    review reqOK decS genv404 menv500 =
      ⟨.httpError 400 "Failed to access GitHub repository. Check the URL and access rights.",
       false⟩ :=
  ⟨by decide, claim5_metadata_failure reqOK decS genv404 menv500 rfl (by decide) (by decide)⟩

/-- Claim C6: collection fails with a fatal error exactly for a wrong host, a
too-short URL path, a failed metadata fetch or a failed tree fetch; every
per-file failure (blob fetch exception, non-200 blob status, non-base64
encoding, or decode failure) only skips the entry, leaving just its manifest
line, and the loop continues with the remaining entries. -/
theorem claim6_error_propagation :
    (∀ (d : String → DecodeResult) (env : GithubEnv) (netloc path : String),
      (∃ e, collect_code_from_github_repo d env netloc path = .error e) ↔
        (netloc ≠ "github.com" ∨ (pathParts path).length < 2 ∨
         env.metadataStatus ≠ 200 ∨ env.treeStatus ≠ 200))
    ∧ (∀ (f : TreeItem → BlobFetch) (d : String → DecodeResult) (i : TreeItem)
        (t : List TreeItem) (s : CollectState),
        ¬ (maxFiles ≤ s.fileCount ∨ maxCodeLength ≤ s.code.length) →
        i.type = "blob" → hasAllowedExt i.path = true → perFileFailure f d i →
        collectLoop f d (i :: t) s =
          collectLoop f d t { s with fileList := s.fileList ++ i.path ++ "\n" }) := by
  constructor
  · intro d env netloc path
    constructor
    · rintro ⟨e, he⟩
      rw [collect_code_from_github_repo] at he
      split_ifs at he with h1 h2 h3 h4
      · exact Or.inl h1
      · exact Or.inr (Or.inl h2)
      · exact Or.inr (Or.inr (Or.inl h3))
      · exact Or.inr (Or.inr (Or.inr h4))
    · intro hcase
      rw [collect_code_from_github_repo]
      split_ifs with h1 h2 h3 h4
      · exact ⟨_, rfl⟩
      · exact ⟨_, rfl⟩
      · exact ⟨_, rfl⟩
      · exact ⟨_, rfl⟩
      · rcases hcase with h | h | h | h
        · exact absurd h h1
        · exact absurd h h2
        · exact absurd h h3
        · exact absurd h h4
  · intro f d i t s hstop hb he hfail
    rcases hfail with hf | ⟨st, c, e, hf, hst⟩ | ⟨c, e, hf, henc⟩ | ⟨c, hf, hd⟩
    · exact collectLoop_skip_exn f d i t s hstop hf
    · exact collectLoop_skip_status f d i t s st c e hstop hf hst
    · exact collectLoop_skip_encoding f d i t s c e hstop hf henc
    · exact collectLoop_skip_decode f d i t s c hstop hf hd

/-- Witness for claim C6: a blob whose fetch returns 404 is skipped and only
its manifest line is recorded. -/
theorem claim6_error_propagation_witness :
    perFileFailure fetch404 decS itemE ∧
    collectLoop fetch404 decS (itemE :: []) initState =
      collectLoop fetch404 decS []
        { initState with fileList := initState.fileList ++ itemE.path ++ "\n" } :=
  ⟨Or.inr (Or.inl ⟨404, "", "", rfl, by decide⟩),
   claim6_error_propagation.2 fetch404 decS itemE [] initState (by decide) rfl (by decide)
     (Or.inr (Or.inl ⟨404, "", "", rfl, by decide⟩))⟩

/-- Claim C7: when appending a decoded file makes the corpus exceed 20000
characters, the collector truncates the appended corpus to exactly 20000
characters, appends the truncation marker, and stops iterating (the remaining
tree entries are never examined), which can cut the last file body mid-file. -/
theorem claim7_overflow_truncation :
    ∀ (f : TreeItem → BlobFetch) (d : String → DecodeResult) (i : TreeItem)
      (t : List TreeItem) (s : CollectState) (c text : String),
      ¬ (maxFiles ≤ s.fileCount ∨ maxCodeLength ≤ s.code.length) →
      i.type = "blob" → hasAllowedExt i.path = true →
      f i = .resp 200 c "base64" → d c = .ok text →
      maxCodeLength < (s.code ++ "\n\n// File: " ++ i.path ++ "\n" ++ text).length →
      collectLoop f d (i :: t) s =
        { code := strTake (s.code ++ "\n\n// File: " ++ i.path ++ "\n" ++ text) maxCodeLength
            ++ codeTruncMarker,
          fileList := s.fileList ++ i.path ++ "\n",
          fileCount := s.fileCount + 1 }
      ∧ (strTake (s.code ++ "\n\n// File: " ++ i.path ++ "\n" ++ text) maxCodeLength).length
          = maxCodeLength := by
  intro f d i t s c text hstop hb he hf hd hlen
  refine ⟨collectLoop_append_overflow f d i t s c text hstop hb he hf hd hlen, ?_⟩
  rw [strTake_length, Nat.min_eq_left (Nat.le_of_lt hlen)]

/-- Witness for claim C7: the overflowing concrete run truncates to exactly
20000 characters, appends the marker and ignores the second tree entry. -/
theorem claim7_overflow_truncation_witness :
    maxCodeLength < (initState.code ++ "\n\n// File: " ++ itemA.path ++ "\n" ++ bigText).length
    ∧ collectLoop fetchBig decBig (itemA :: [itemB]) initState =
        { code := strTake (initState.code ++ "\n\n// File: " ++ itemA.path ++ "\n" ++ bigText)
            maxCodeLength ++ codeTruncMarker,
          fileList := initState.fileList ++ itemA.path ++ "\n",
          fileCount := initState.fileCount + 1 }
    ∧ (strTake (initState.code ++ "\n\n// File: " ++ itemA.path ++ "\n" ++ bigText)
        maxCodeLength).length = maxCodeLength :=
  ⟨big_newCode_over,
   (claim7_overflow_truncation fetchBig decBig itemA [itemB] initState "BIG" bigText (by decide)
     rfl (by decide) rfl (by simp [decBig]) big_newCode_over).1,
   (claim7_overflow_truncation fetchBig decBig itemA [itemB] initState "BIG" bigText (by decide)
     rfl (by decide) rfl (by simp [decBig]) big_newCode_over).2⟩

/-- Claim C8: the included-file counter never exceeds 100, and the collection
result is insensitive to the fetch outcomes of entries that are not blobs with
allow-listed extensions, so only such files are ever fetched and decoded into
the corpus. -/
theorem claim8_file_cap_and_allowlist :
    (∀ (f : TreeItem → BlobFetch) (d : String → DecodeResult) (tree : List TreeItem)
      (s : CollectState), s.fileCount ≤ maxFiles →
      (collectLoop f d tree s).fileCount ≤ maxFiles)
    ∧ (∀ (f₁ f₂ : TreeItem → BlobFetch) (d : String → DecodeResult) (tree : List TreeItem)
        (s : CollectState),
        (∀ it : TreeItem, it.type = "blob" → hasAllowedExt it.path = true → f₁ it = f₂ it) →
        collectLoop f₁ d tree s = collectLoop f₂ d tree s) :=
  ⟨collectLoop_count_inv, collectLoop_fetch_congr⟩

/-- Witness for claim C8: a concrete one-file run keeps the counter within the
cap. -/
theorem claim8_file_cap_and_allowlist_witness :
    initState.fileCount ≤ maxFiles ∧
    (collectLoop fetchS decS tree1 initState).fileCount ≤ maxFiles :=
  ⟨by decide, claim8_file_cap_and_allowlist.1 fetchS decS tree1 initState (by decide)⟩

/-- Claim C9: when the MISTRAL_API_KEY variable is unset, the review client
raises before any request is sent (the request-sent flag stays false) and the
endpoint responds 500 with the generic internal-error detail rather than the
distinguished completion-HTTP-error detail. -/
theorem claim9_missing_api_key :
    ∀ (req : ReviewRequest) (d : String → DecodeResult) (genv : GithubEnv)
      (menv : MistralEnv) (corpus : String),
      collect_code_from_github_repo d genv req.netloc req.urlPath = .ok corpus →
      menv.apiKey = none →
      review req d genv menv =
        ⟨.httpError 500 "An internal server error occurred. Please try again later.",
         false⟩ := by
  intro req d genv menv corpus hcol hkey
  have hkm : keyMissing menv.apiKey = true := by rw [hkey]; rfl
  have hsub : containsSubstr "Mistral AI API key not found in environment variables."
      "HTTP error when accessing Mistral AI API" = false := by decide
  rw [review, hcol]
  simp only [get_mistral_review, hkm, if_true, hsub, Bool.false_eq_true, if_false]

/-- Witness for claim C9: a concrete run with the key unset produces the
generic 500 and no completion request. -/
theorem claim9_missing_api_key_witness :
    menvNoKey.apiKey = none ∧
    review reqOK decS genvOK menvNoKey =
      ⟨.httpError 500 "An internal server error occurred. Please try again later.", false⟩ :=
  ⟨rfl, claim9_missing_api_key reqOK decS genvOK menvNoKey
    (collectFromTree genvOK.fetch decS genvOK.tree) rfl rfl⟩

/-- Claim C10: a 200 blob response with base64 encoding and an empty (or
missing, defaulted to empty) content field still appends the file header with
an empty body to the corpus and increments the included-file counter. -/
theorem claim10_empty_content_blob :
    ∀ (f : TreeItem → BlobFetch) (d : String → DecodeResult) (i : TreeItem)
      (t : List TreeItem) (s : CollectState),
      ¬ (maxFiles ≤ s.fileCount ∨ maxCodeLength ≤ s.code.length) →
      i.type = "blob" → hasAllowedExt i.path = true →
      f i = .resp 200 "" "base64" → d "" = .ok "" →
      (s.code ++ "\n\n// File: " ++ i.path ++ "\n").length ≤ maxCodeLength →
      collectLoop f d (i :: t) s =
        collectLoop f d t
          { code := s.code ++ "\n\n// File: " ++ i.path ++ "\n",
            fileList := s.fileList ++ i.path ++ "\n",
            fileCount := s.fileCount + 1 } := by
  intro f d i t s hstop hb he hf hd hlen
  have h := collectLoop_append_fits f d i t s "" "" hstop hb he hf hd
    (by rw [String.append_empty]; exact Nat.not_lt.mpr hlen)
  rw [String.append_empty] at h
  exact h

/-- Witness for claim C10: a concrete empty-content blob adds its header and
bumps the counter. -/
theorem claim10_empty_content_blob_witness :
    decE "" = .ok "" ∧
    collectLoop fetchEmpty decE (itemS :: []) initState =
      collectLoop fetchEmpty decE []
        { code := initState.code ++ "\n\n// File: " ++ itemS.path ++ "\n",
          fileList := initState.fileList ++ itemS.path ++ "\n",
          fileCount := initState.fileCount + 1 } :=
  ⟨rfl, claim10_empty_content_blob fetchEmpty decE itemS [] initState (by decide) rfl (by decide)
    rfl rfl (by decide)⟩

end AutoReview
